import Mathlib

/-!
Shallow embedding of the stage-flow conversational agent
(`multi_prompt_agent.py`, `schema_validation.py`) and proofs about it.

Modelling conventions:
* Python strings are Lean `String`s; `str.lower` is modelled per character
  (the configurations in scope are ASCII).
* Python dicts (insertion ordered) are association lists with unique keys;
  `d[k]` is `dictGet?`, `d.update(u)` is `dictUpdate`.
* Context values are modelled by their textual representation (the code only
  ever uses them through `str(value)` during substitution).
* Timestamps, logging and the LLM chat-context update (`_update_stage_context`)
  are omitted: they do not touch the session state the properties speak about.
* An uncaught Python `KeyError` (e.g. `stages[current_stage_id]` with an
  invalid current stage) is modelled by an `Option` result being `none`.
* Speech emitted via `session.say` is collected in a `speech` list; each call
  of `_enter_stage` records its argument in an `entered` list.
-/

namespace MPA

/-- Python `str.lower`, per character (ASCII model). -/
def pyLower (s : String) : String := ⟨s.data.map Char.toLower⟩

/-- Python `pat in s` substring test, on character lists. -/
def isSubstrL (pat : List Char) : List Char → Bool
  | [] => pat.isPrefixOf []
  | c :: rest => pat.isPrefixOf (c :: rest) || isSubstrL pat rest

/-- Python `pat in s` substring test on strings. -/
def containsSubstr (pat s : String) : Bool := isSubstrL pat.data s.data

/-- Worker for `replaceL`: left-to-right scan replacing non-overlapping
occurrences of the pattern `p :: ps` by `rep`.  The `Nat` argument counts
pattern characters still to be skipped after a match. -/
def replSkip (p : Char) (ps rep : List Char) : Nat → List Char → List Char
  | _, [] => []
  | Nat.succ n, _ :: rest => replSkip p ps rep n rest
  | 0, c :: rest =>
    if (p :: ps).isPrefixOf (c :: rest) then rep ++ replSkip p ps rep ps.length rest
    else c :: replSkip p ps rep 0 rest

/-- Python `s.replace(pat, rep)` on character lists, for the nonempty
patterns this program uses (variable markers always contain braces, so the
empty-pattern case never arises; it is mapped to the identity here). -/
def replaceL (pat rep s : List Char) : List Char :=
  match pat with
  | [] => s
  | p :: ps => replSkip p ps rep 0 s

/-- Python `s.replace(pat, rep)` on strings. -/
def strReplace (s pat rep : String) : String := ⟨replaceL pat.data rep.data s.data⟩

/-- The literal marker `{{key}}` built by `f"{{{{{key}}}}}"` in the source. -/
def varMarker (k : String) : String := "\x7b\x7b" ++ k ++ "\x7d\x7d"

/-- `MultiPromptAgent._substitute_variables`: for each `(key, value)` of the
context, in insertion order, replace every occurrence of `{{key}}` by the
value's textual representation. -/
def substitute_variables (text : String) (context : List (String × String)) : String :=
  context.foldl (fun t kv => strReplace t (varMarker kv.1) kv.2) text

/-- Worker for `pySplit`; `acc` is the current token, reversed. -/
def splitWSAux : List Char → List Char → List (List Char)
  | [], acc => if acc.isEmpty then [] else [acc.reverse]
  | c :: rest, acc =>
    if c.isWhitespace then
      if acc.isEmpty then splitWSAux rest [] else acc.reverse :: splitWSAux rest []
    else splitWSAux rest (c :: acc)

/-- Python `s.split()`: whitespace-separated tokens, empty tokens dropped. -/
def pySplit (s : String) : List String := (splitWSAux s.data []).map String.mk

/-- One entry of a stage's `next_stages` list.  `priority` is `none` when the
key is absent from the configuration (the code then defaults it to 50). -/
structure NextStage where
  stage_id : String
  condition : String
  priority : Option Int
  deriving DecidableEq

/-- A stage definition as loaded from the configuration.  `context_updates`
and `next_stages` are `none` when the corresponding key is absent. -/
structure Stage where
  id : String
  name : String
  description : String
  greeting : String
  prompt : String
  completion_criteria : String
  context_updates : Option (List (String × String))
  next_stages : Option (List NextStage)
  deriving DecidableEq

/-- One record of `conversation_history` (timestamp omitted). -/
structure HistoryEntry where
  role : String
  content : String
  stage_id : String
  deriving DecidableEq

/-- The session state (`UserData` in the source) restricted to the fields the
engine logic reads and writes: current stage, context, history. -/
structure UserData where
  current_stage_id : String
  context : List (String × String)
  conversation_history : List HistoryEntry
  deriving DecidableEq

/-- The stage graph `self.stages`: a string-keyed, insertion-ordered map. -/
abbrev StageMap := List (String × Stage)

/-- Python `d[k]` / `k in d` on an insertion-ordered dict. -/
def dictGet? {α : Type} (d : List (String × α)) (k : String) : Option α :=
  (d.find? (fun p => p.1 == k)).map (fun p => p.2)

/-- Python `d[k] = v`: overwrite in place, or append a new key at the end. -/
def dictInsert {α : Type} (d : List (String × α)) (k : String) (v : α) :
    List (String × α) :=
  if d.any (fun p => p.1 == k) then d.map (fun p => if p.1 == k then (k, v) else p)
  else d ++ [(k, v)]

/-- Python `d.update(updates)`. -/
def dictUpdate {α : Type} (d updates : List (String × α)) : List (String × α) :=
  updates.foldl (fun acc kv => dictInsert acc kv.1 kv.2) d

/-- Result of one engine operation: the session state afterwards, the strings
emitted via `session.say`, and the stage ids `_enter_stage` was called with. -/
structure EngineResult where
  userdata : UserData
  speech : List String
  entered : List String
  deriving DecidableEq

/-- How a `move_to_next_stage` call returned. -/
inductive MoveOutcome where
  | ended
  | unknownStage
  | invalidTransition
  | transitioned
  deriving DecidableEq

/-- Which branch `end_conversation` took. -/
inductive EndOutcome where
  | viaCompletion
  | viaGoodbyeTransition
  | forcedGoodbye
  | defaultFarewell
  deriving DecidableEq

/-- The hardcoded closing message in `move_to_next_stage` / `end_conversation`. -/
def farewellMessage : String := "Thank you for contacting us. Have a great day!"

/-- The context after merging a stage's `context_updates` (if present). -/
def stageUpdatedContext (stage : Stage) (ctx : List (String × String)) :
    List (String × String) :=
  match stage.context_updates with
  | some u => dictUpdate ctx u
  | none => ctx

/-- `MultiPromptAgent._enter_stage`.  Mirrors the source order: the current
stage id is assigned first; only then is the stage looked up, and on a miss
the method logs and returns.  On a hit it merges `context_updates`, renders
greeting and prompt against the updated context, says the greeting, and
appends one assistant history entry carrying the rendered prompt. -/
def enter_stage (stages : StageMap) (st : UserData) (stage_id : String) :
    EngineResult :=
  let st1 : UserData := { st with current_stage_id := stage_id }
  match dictGet? stages stage_id with
  | none => ⟨st1, [], [stage_id]⟩
  | some stage =>
    let ctx := stageUpdatedContext stage st1.context
    let greeting := substitute_variables stage.greeting ctx
    let prompt := substitute_variables stage.prompt ctx
    ⟨⟨stage_id, ctx, st1.conversation_history ++ [⟨"assistant", prompt, stage_id⟩]⟩,
      [greeting], [stage_id]⟩

/-- The `valid_transitions` list computed in `move_to_next_stage` and
`end_conversation`: the declared `next_stages` targets, `[]` when the key is
absent. -/
def validTargets (stage : Stage) : List String :=
  (stage.next_stages.getD []).map (fun ns => ns.stage_id)

/-- `MultiPromptAgent.move_to_next_stage` (tool).  `none` models an uncaught
`KeyError` on `stages[current_stage_id]` (only reachable when the current
stage id is invalid). -/
def move_to_next_stage (stages : StageMap) (st : UserData) (target : String) :
    Option (EngineResult × MoveOutcome) :=
  if target = "END" then some (⟨st, [farewellMessage], []⟩, .ended)
  else if (dictGet? stages target).isNone then some (⟨st, [], []⟩, .unknownStage)
  else
    match dictGet? stages st.current_stage_id with
    | none => none
    | some cur =>
      if target ∉ validTargets cur ∧ target ≠ "END" then
        some (⟨st, [], []⟩, .invalidTransition)
      else some (enter_stage stages st target, .transitioned)

/-- Priority of a transition, defaulting to 50 (`s.get("priority", 50)`). -/
def priorityOf (ns : NextStage) : Int := ns.priority.getD 50

/-- Ordering used to sort transitions: descending priority. -/
def nextStageGE (a b : NextStage) : Prop := priorityOf b ≤ priorityOf a

instance : DecidableRel nextStageGE := fun a b => Int.decLe _ _

instance : IsTotal NextStage nextStageGE := ⟨fun a b => le_total (priorityOf b) (priorityOf a)⟩

instance : IsTrans NextStage nextStageGE := ⟨fun _ _ _ hab hbc => le_trans hbc hab⟩

/-- `sorted(next_stages, key=lambda s: s.get("priority", 50), reverse=True)`:
a stable sort by priority descending (Python's `sorted` is stable, and
`reverse=True` keeps equal elements in declaration order). -/
def sortedNextStages (nss : List NextStage) : List NextStage :=
  List.insertionSort nextStageGE nss

/-- One transition's condition test: some whitespace token of the lowercased
condition occurs as a substring of the (already lowercased) user input. -/
def conditionMatches (condition userLower : String) : Bool :=
  (pySplit (pyLower condition)).any (fun kw => containsSubstr kw userLower)

/-- The evaluation loop of `_find_next_stage`: first transition (in the given
order) whose condition matches wins. -/
def firstMatchingTarget : List NextStage → String → Option String
  | [], _ => none
  | ns :: rest, ul =>
    if conditionMatches ns.condition ul then some ns.stage_id
    else firstMatchingTarget rest ul

/-- `MultiPromptAgent._find_next_stage`.  The outer `Option` models the
`KeyError` on `stages[current_stage_id]`; the inner one is the method's own
result (`None` = no condition matched / no `next_stages` declared).  The
`context` parameter is accepted and unused, as in the source. -/
def find_next_stage (stages : StageMap) (user_input current_stage_id : String)
    (context : List (String × String)) : Option (Option String) :=
  match dictGet? stages current_stage_id with
  | none => none
  | some cur =>
    some (match cur.next_stages with
      | none => none
      | some nss => firstMatchingTarget (sortedNextStages nss) (pyLower user_input))

/-- `MultiPromptAgent.complete_current_stage` (tool): resolve via
`_find_next_stage`, then delegate to `move_to_next_stage`, or stay put.
The source's `if next_stage:` is a Python truthiness test on an optional
string: it is false both for `None` and for the empty string, so a resolved
empty-string target is treated as no target and the session stays put. -/
def complete_current_stage (stages : StageMap) (st : UserData) (reason : String) :
    Option (EngineResult × Option MoveOutcome) :=
  match find_next_stage stages reason st.current_stage_id st.context with
  | none => none
  | some none => some (⟨st, [], []⟩, none)
  | some (some target) =>
    if target = "" then some (⟨st, [], []⟩, none)
    else (move_to_next_stage stages st target).map (fun ro => (ro.1, some ro.2))

/-- `MultiPromptAgent.end_conversation` (tool): preference-ordered shutdown. -/
def end_conversation (stages : StageMap) (st : UserData) :
    Option (EngineResult × EndOutcome) :=
  match dictGet? stages st.current_stage_id with
  | none => none
  | some cur =>
    if "completion" ∈ validTargets cur then
      (move_to_next_stage stages st "completion").map (fun ro => (ro.1, .viaCompletion))
    else if "goodbye" ∈ validTargets cur then
      (move_to_next_stage stages st "goodbye").map (fun ro => (ro.1, .viaGoodbyeTransition))
    else if (dictGet? stages "goodbye").isSome then
      some (enter_stage stages st "goodbye", .forcedGoodbye)
    else some (⟨st, [farewellMessage], []⟩, .defaultFarewell)

/-- `MultiPromptAgent.on_user_speech_committed`: append one user entry. -/
def on_user_speech_committed (st : UserData) (msg : String) : UserData :=
  { st with conversation_history :=
      st.conversation_history ++ [⟨"user", msg, st.current_stage_id⟩] }

/-- One engine operation, as invocable by the LLM / speech layer. -/
inductive Op where
  | moveTo (target : String)
  | complete (reason : String)
  | endConv
  | speech (msg : String)
  deriving DecidableEq

/-- Run one engine operation, keeping only the session state. -/
def stepOp (stages : StageMap) (st : UserData) : Op → Option UserData
  | .moveTo t => (move_to_next_stage stages st t).map (fun ro => ro.1.userdata)
  | .complete r => (complete_current_stage stages st r).map (fun ro => ro.1.userdata)
  | .endConv => (end_conversation stages st).map (fun ro => ro.1.userdata)
  | .speech m => some (on_user_speech_committed st m)

/-- Run a sequence of engine operations. -/
def runOps (stages : StageMap) (st : UserData) : List Op → Option UserData
  | [] => some st
  | op :: rest =>
    match stepOp stages st op with
    | none => none
    | some st2 => runOps stages st2 rest

/-- The current stage id is a key of the stage graph. -/
def validCurrent (stages : StageMap) (st : UserData) : Prop :=
  (dictGet? stages st.current_stage_id).isSome = true

/-!
Raw-configuration model for `schema_validation.py`.  The validator only ever
tests key presence (and, for `start_stage` and `next_stages[*].stage_id`,
compares string values), so leaf fields whose values it never reads are
modelled as presence booleans; fields whose values it reads are `Option`s.
The Python `ValueError` messages are kept except that the quotes around
interpolated names are elided.
-/

/-- `global_settings.llm_settings`: presence of the required sub-fields. -/
structure RawLLMSettings where
  provider : Bool
  model : Bool
  temperature : Bool
  deriving DecidableEq

/-- `global_settings.stt_settings`: presence of the required sub-fields. -/
structure RawSTTSettings where
  provider : Bool
  model : Bool
  language : Bool
  deriving DecidableEq

/-- `global_settings.tts_settings`: presence of the required sub-fields. -/
structure RawTTSSettings where
  provider : Bool
  model : Bool
  voice : Bool
  deriving DecidableEq

/-- The `global_settings` section; `none` = subsection key absent. -/
structure RawGlobalSettings where
  llm_settings : Option RawLLMSettings
  stt_settings : Option RawSTTSettings
  tts_settings : Option RawTTSSettings
  deriving DecidableEq

/-- The `agent_config` section: presence of `name` and `base_instructions`. -/
structure RawAgentConfig where
  name : Bool
  base_instructions : Bool
  deriving DecidableEq

/-- One raw `next_stages` entry.  The validator reads the `stage_id` value
(for the existence check) but only the presence of `condition`. -/
structure RawNextStage where
  stage_id : Option String
  condition : Bool
  deriving DecidableEq

/-- One raw stage.  The validator reads only presence of `id`, `name`,
`prompt`, `completion_criteria`; the `id` value is kept in the model so that
properties about it can be stated. -/
structure RawStage where
  id : Option String
  name : Bool
  prompt : Bool
  completion_criteria : Bool
  next_stages : Option (List RawNextStage)
  deriving DecidableEq

/-- The `flow` section. -/
structure RawFlow where
  start_stage : Option String
  stages : Option (List (String × RawStage))
  deriving DecidableEq

/-- A raw configuration document (top level). -/
structure RawConfig where
  global_settings : Option RawGlobalSettings
  agent_config : Option RawAgentConfig
  flow : Option RawFlow
  deriving DecidableEq

/-- The `next_stages` loop of `SchemaValidator._validate_stage`. -/
def validateNextStageList (stage_id : String) (all : List (String × RawStage)) :
    List RawNextStage → Except String Unit
  | [] => Except.ok ()
  | ns :: rest =>
    match ns.stage_id with
    | none => Except.error ("next_stage in stage " ++ stage_id ++ " missing stage_id")
    | some t =>
      if !ns.condition then
        Except.error ("next_stage in stage " ++ stage_id ++ " missing condition")
      else if t ≠ "END" ∧ (dictGet? all t).isNone then
        Except.error ("Stage " ++ stage_id ++ " references non-existent stage: " ++ t)
      else validateNextStageList stage_id all rest

/-- `SchemaValidator._validate_stage`. -/
def validate_stage (stage_id : String) (s : RawStage) (all : List (String × RawStage)) :
    Except String Unit :=
  if s.id.isNone then Except.error ("Stage " ++ stage_id ++ " missing required field: id")
  else if !s.name then Except.error ("Stage " ++ stage_id ++ " missing required field: name")
  else if !s.prompt then Except.error ("Stage " ++ stage_id ++ " missing required field: prompt")
  else if !s.completion_criteria then
    Except.error ("Stage " ++ stage_id ++ " missing required field: completion_criteria")
  else
    match s.next_stages with
    | none => Except.ok ()
    | some nss => validateNextStageList stage_id all nss

/-- The per-stage loop of `SchemaValidator._validate_stage_flow`. -/
def validateStageList (all : List (String × RawStage)) :
    List (String × RawStage) → Except String Unit
  | [] => Except.ok ()
  | (sid, s) :: rest =>
    match validate_stage sid s all with
    | Except.error e => Except.error e
    | Except.ok _ => validateStageList all rest

/-- `SchemaValidator._validate_stage_flow`. -/
def validate_stage_flow (fl : RawFlow) : Except String Unit :=
  match fl.start_stage with
  | none => Except.error "Missing start_stage in flow"
  | some ss =>
    match fl.stages with
    | none => Except.error "Missing stages in flow"
    | some stgs =>
      if (dictGet? stgs ss).isNone then
        Except.error ("start_stage " ++ ss ++ " not found in stages")
      else validateStageList stgs stgs

/-- `SchemaValidator._validate_global_settings`. -/
def validate_global_settings (gs : RawGlobalSettings) : Except String Unit :=
  match gs.llm_settings with
  | none => Except.error "Missing llm_settings in global_settings"
  | some llm =>
    match gs.stt_settings with
    | none => Except.error "Missing stt_settings in global_settings"
    | some stt =>
      match gs.tts_settings with
      | none => Except.error "Missing tts_settings in global_settings"
      | some tts =>
        if !(llm.provider && llm.model && llm.temperature) then
          Except.error "LLM settings missing required fields"
        else if !(stt.provider && stt.model && stt.language) then
          Except.error "STT settings missing required fields"
        else if !(tts.provider && tts.model && tts.voice) then
          Except.error "TTS settings missing required fields"
        else Except.ok ()

/-- `SchemaValidator._validate_agent_config`. -/
def validate_agent_config (ac : RawAgentConfig) : Except String Unit :=
  if !ac.name then Except.error "Missing name in agent_config"
  else if !ac.base_instructions then Except.error "Missing base_instructions in agent_config"
  else Except.ok ()

/-- `SchemaValidator._validate_config`: required top-level keys first, then
the three sections, short-circuiting at the first failure. -/
def validate_config (c : RawConfig) : Except String Unit :=
  match c.global_settings with
  | none => Except.error "Missing required key in config: global_settings"
  | some gs =>
    match c.agent_config with
    | none => Except.error "Missing required key in config: agent_config"
    | some ac =>
      match c.flow with
      | none => Except.error "Missing required key in config: flow"
      | some fl =>
        match validate_global_settings gs with
        | Except.error e => Except.error e
        | Except.ok _ =>
          match validate_agent_config ac with
          | Except.error e => Except.error e
          | Except.ok _ => validate_stage_flow fl

/-- Spec-side completeness of one `next_stages` entry (per the specification
wording): `stage_id` and `condition` present, non-END target resolves. -/
def nextStageComplete (all : List (String × RawStage)) (ns : RawNextStage) : Bool :=
  match ns.stage_id with
  | none => false
  | some t => ns.condition && (t == "END" || (dictGet? all t).isSome)

/-- Spec-side completeness of one stage. -/
def stageComplete (all : List (String × RawStage)) (s : RawStage) : Bool :=
  s.id.isSome && s.name && s.prompt && s.completion_criteria &&
    (match s.next_stages with
     | none => true
     | some nss => nss.all (nextStageComplete all))

/-- Spec-side completeness of the `global_settings` section: the three
subsections present, each with its required sub-fields. -/
def globalSettingsComplete (gs : RawGlobalSettings) : Bool :=
  (match gs.llm_settings with
   | some l => l.provider && l.model && l.temperature
   | none => false) &&
  (match gs.stt_settings with
   | some s => s.provider && s.model && s.language
   | none => false) &&
  (match gs.tts_settings with
   | some t => t.provider && t.model && t.voice
   | none => false)

/-- Spec-side completeness of the `agent_config` section. -/
def agentConfigComplete (ac : RawAgentConfig) : Bool :=
  ac.name && ac.base_instructions

/-- Spec-side completeness of the `flow` section: `start_stage` and `stages`
present, `start_stage` a key of `stages`, every stage complete. -/
def flowComplete (fl : RawFlow) : Bool :=
  match fl.start_stage, fl.stages with
  | some ss, some stgs =>
    (dictGet? stgs ss).isSome && stgs.all (fun p => stageComplete stgs p.2)
  | _, _ => false

/-- Structural completeness of a configuration, written from the words of the
specification (section 4.1): all required keys and sub-fields present,
`start_stage` a key of `stages`, every stage complete. -/
def structurallyComplete (c : RawConfig) : Bool :=
  match c.global_settings, c.agent_config, c.flow with
  | some gs, some ac, some fl =>
    globalSettingsComplete gs && agentConfigComplete ac && flowComplete fl
  | _, _, _ => false

/-- Rewrite one stage's `id` value through `f`, preserving its presence. -/
def stageIdMap (f : String → String) (s : RawStage) : RawStage :=
  { s with id := s.id.map f }

/-- Rewrite every stage's `id` value through `f`, preserving its presence and
everything else in the configuration. -/
def mapStageIds (f : String → String) (c : RawConfig) : RawConfig :=
  { c with flow := c.flow.map (fun fl =>
      { fl with stages := fl.stages.map (fun stgs =>
          stgs.map (fun p => (p.1, stageIdMap f p.2))) }) }

/-!
Concrete example data used by witnesses and counterexamples.
-/

/-- Example stage: the intake stage of a small flow. -/
def stIntake : Stage where
  id := "intake"
  name := "Intake"
  description := "first stage"
  greeting := "Hello \x7b\x7bname\x7d\x7d"
  prompt := "Collect the concern for \x7b\x7bdept\x7d\x7d"
  completion_criteria := "caller stated a concern"
  context_updates := some [("dept", "front-desk")]
  next_stages := some [⟨"billing", "bill payment", some 100⟩, ⟨"completion", "done finished", none⟩]

/-- Example stage: billing. -/
def stBilling : Stage where
  id := "billing"
  name := "Billing"
  description := "billing stage"
  greeting := "You reached \x7b\x7bdept\x7d\x7d"
  prompt := "Handle the bill for \x7b\x7bname\x7d\x7d"
  completion_criteria := "bill handled"
  context_updates := some [("dept", "billing")]
  next_stages := some [⟨"END", "bye", none⟩]

/-- Example stage: completion wrap-up. -/
def stCompletion : Stage where
  id := "completion"
  name := "Completion"
  description := "wrap up"
  greeting := "Anything else?"
  prompt := "Wrap up the call"
  completion_criteria := "confirmed done"
  context_updates := none
  next_stages := none

/-- Example stage: goodbye. -/
def stGoodbye : Stage where
  id := "goodbye"
  name := "Goodbye"
  description := "farewell"
  greeting := "Goodbye!"
  prompt := "Say farewell"
  completion_criteria := "call over"
  context_updates := none
  next_stages := none

/-- Example stage graph. -/
def exStages : StageMap :=
  [("intake", stIntake), ("billing", stBilling),
   ("completion", stCompletion), ("goodbye", stGoodbye)]

/-- Example session state sitting in the intake stage. -/
def exSt0 : UserData := ⟨"intake", [("name", "Ana")], []⟩

/-- Example stage whose single declared target is the empty-string stage id. -/
def stStartE : Stage where
  id := "start"
  name := "Start"
  description := "start stage"
  greeting := "Hi"
  prompt := "Begin"
  completion_criteria := "begun"
  context_updates := none
  next_stages := some [⟨"", "escalate", some 100⟩]

/-- Example stage stored under the empty-string key. -/
def stEmptyKey : Stage where
  id := ""
  name := "Empty"
  description := "stage keyed by the empty string"
  greeting := "Empty greeting"
  prompt := "Empty prompt"
  completion_criteria := "done"
  context_updates := none
  next_stages := none

/-- Example stage graph containing a stage keyed by the empty string. -/
def exStagesE : StageMap := [("start", stStartE), ("", stEmptyKey)]

/-- Example session state at the start stage of `exStagesE`. -/
def exStE : UserData := ⟨"start", [], []⟩

/-- Raw configuration mirroring `exStagesE`: the validator accepts it even
though one stage is keyed by the empty string. -/
def cfgEmptyKey : RawConfig where
  global_settings := some ⟨some ⟨true, true, true⟩, some ⟨true, true, true⟩, some ⟨true, true, true⟩⟩
  agent_config := some ⟨true, true⟩
  flow := some ⟨some "start",
    some [("start", ⟨some "start", true, true, true, some [⟨some "", true⟩]⟩),
          ("", ⟨some "", true, true, true, none⟩)]⟩

/-- A structurally complete raw configuration. -/
def cfgGood : RawConfig where
  global_settings := some ⟨some ⟨true, true, true⟩, some ⟨true, true, true⟩, some ⟨true, true, true⟩⟩
  agent_config := some ⟨true, true⟩
  flow := some ⟨some "a",
    some [("a", ⟨some "a", true, true, true, some [⟨some "b", true⟩, ⟨some "END", true⟩]⟩),
          ("b", ⟨some "b", true, true, true, none⟩)]⟩

/-- A raw stage missing its `id` field. -/
def stNoId : RawStage := ⟨none, true, true, true, none⟩

/-- Like `cfgGood`, but its only stage is missing the `id` field. -/
def cfgNoId : RawConfig where
  global_settings := some ⟨some ⟨true, true, true⟩, some ⟨true, true, true⟩, some ⟨true, true, true⟩⟩
  agent_config := some ⟨true, true⟩
  flow := some ⟨some "a", some [("a", stNoId)]⟩

/-- Like `cfgGood`, but the stage stored under key `"a"` declares `id = "b"`. -/
def cfgMismatch : RawConfig where
  global_settings := some ⟨some ⟨true, true, true⟩, some ⟨true, true, true⟩, some ⟨true, true, true⟩⟩
  agent_config := some ⟨true, true⟩
  flow := some ⟨some "a",
    some [("a", ⟨some "b", true, true, true, some [⟨some "b", true⟩, ⟨some "END", true⟩]⟩),
          ("b", ⟨some "b", true, true, true, none⟩)]⟩

/-!
Helper lemmas about `enter_stage`.
-/

theorem enter_stage_of_none {stages : StageMap} {s : String} (st : UserData)
    (h : dictGet? stages s = none) :
    enter_stage stages st s = ⟨{ st with current_stage_id := s }, [], [s]⟩ := by
  simp [enter_stage, h]

theorem enter_stage_of_some {stages : StageMap} {s : String} {stage : Stage} (st : UserData)
    (h : dictGet? stages s = some stage) :
    enter_stage stages st s =
      ⟨⟨s, stageUpdatedContext stage st.context,
         st.conversation_history ++
           [⟨"assistant",
             substitute_variables stage.prompt (stageUpdatedContext stage st.context), s⟩]⟩,
       [substitute_variables stage.greeting (stageUpdatedContext stage st.context)],
       [s]⟩ := by
  simp [enter_stage, h]

theorem enter_stage_current_eq (stages : StageMap) (st : UserData) (s : String) :
    (enter_stage stages st s).userdata.current_stage_id = s := by
  rcases h : dictGet? stages s with _ | stage
  · rw [enter_stage_of_none st h]
  · rw [enter_stage_of_some st h]

/-- C3: for every session state, `move_to_next_stage` with target `"END"`
emits the closing message, reports the terminal `ended` outcome, leaves the
session state untouched, and never calls `_enter_stage` (no context merge, no
history append, no stage entry). -/
theorem claim_C3_end_transition (stages : StageMap) (st : UserData) :
    move_to_next_stage stages st "END" =
      some (⟨st, [farewellMessage], []⟩, MoveOutcome.ended) := by
  simp [move_to_next_stage]

/-- C6: a successful stage entry appends exactly one history entry, with role
"assistant", whose content is the prompt rendered against the context as
updated by the stage's `context_updates` merge, tagged with the entered stage
id; the history grows by exactly one entry. -/
theorem claim_C6_enter_stage_history (stages : StageMap) (st : UserData) (s : String)
    (stage : Stage) (h : dictGet? stages s = some stage) :
    (enter_stage stages st s).userdata.conversation_history =
      st.conversation_history ++
        [⟨"assistant",
          substitute_variables stage.prompt (stageUpdatedContext stage st.context), s⟩] ∧
    (enter_stage stages st s).userdata.context = stageUpdatedContext stage st.context ∧
    (enter_stage stages st s).userdata.conversation_history.length =
      st.conversation_history.length + 1 := by
  simp [enter_stage_of_some st h]

/-- Witness for C6 at a concrete stage entry. -/
theorem claim_C6_witness :
    (enter_stage exStages exSt0 "billing").userdata.conversation_history =
      exSt0.conversation_history ++
        [⟨"assistant",
          substitute_variables stBilling.prompt (stageUpdatedContext stBilling exSt0.context),
          "billing"⟩] ∧
    (enter_stage exStages exSt0 "billing").userdata.context =
      stageUpdatedContext stBilling exSt0.context ∧
    (enter_stage exStages exSt0 "billing").userdata.conversation_history.length =
      exSt0.conversation_history.length + 1 :=
  claim_C6_enter_stage_history exStages exSt0 "billing" stBilling (by rfl)

/-- C2: for a non-"END" target, `move_to_next_stage` fails with the unknown
stage branch exactly when the target is not a key of the stage graph, fails
with the invalid-transition branch exactly when the target exists but is not
among the current stage's declared targets, and otherwise enters the target;
in both failure branches the session state is returned unchanged with no
speech and no stage entry. -/
theorem claim_C2_move_validation (stages : StageMap) (st : UserData) (target : String)
    (cur : Stage) (hne : target ≠ "END")
    (hcur : dictGet? stages st.current_stage_id = some cur) :
    (dictGet? stages target = none →
      move_to_next_stage stages st target = some (⟨st, [], []⟩, MoveOutcome.unknownStage)) ∧
    ((dictGet? stages target).isSome = true → target ∉ validTargets cur →
      move_to_next_stage stages st target = some (⟨st, [], []⟩, MoveOutcome.invalidTransition)) ∧
    ((dictGet? stages target).isSome = true → target ∈ validTargets cur →
      move_to_next_stage stages st target = some (enter_stage stages st target,
        MoveOutcome.transitioned)) := by
  refine ⟨fun h => ?_, fun h hmem => ?_, fun h hmem => ?_⟩
  · simp [move_to_next_stage, hne, h]
  · obtain ⟨v, hv⟩ := Option.isSome_iff_exists.mp h
    simp [move_to_next_stage, hne, hv, hcur, hmem]
  · obtain ⟨v, hv⟩ := Option.isSome_iff_exists.mp h
    simp [move_to_next_stage, hne, hv, hcur, hmem]

/-- Witness for C2: all three branches at concrete inputs ("nope" unknown,
"goodbye" exists but is not a declared target of the intake stage, "billing"
is declared and entered). -/
theorem claim_C2_witness :
    move_to_next_stage exStages exSt0 "nope" = some (⟨exSt0, [], []⟩, MoveOutcome.unknownStage) ∧
    move_to_next_stage exStages exSt0 "goodbye" =
      some (⟨exSt0, [], []⟩, MoveOutcome.invalidTransition) ∧
    move_to_next_stage exStages exSt0 "billing" =
      some (enter_stage exStages exSt0 "billing", MoveOutcome.transitioned) :=
  ⟨(claim_C2_move_validation exStages exSt0 "nope" stIntake (by decide) (by rfl)).1 (by rfl),
   (claim_C2_move_validation exStages exSt0 "goodbye" stIntake (by decide) (by rfl)).2.1
     (by rfl) (by decide),
   (claim_C2_move_validation exStages exSt0 "billing" stIntake (by decide) (by rfl)).2.2
     (by rfl) (by decide)⟩

/-- C7: `end_conversation` follows the preference order: a declared
"completion" target is taken through `move_to_next_stage` (so
`_enter_stage("completion")` runs and the hardcoded farewell is not emitted);
otherwise a declared "goodbye" target is taken the same way; otherwise an
existing "goodbye" stage is entered directly, bypassing transition
validation; otherwise the default closing message is emitted with no stage
transition. -/
theorem claim_C7_graceful_end (stages : StageMap) (st : UserData) (cur : Stage)
    (hcur : dictGet? stages st.current_stage_id = some cur) :
    ("completion" ∈ validTargets cur → (dictGet? stages "completion").isSome = true →
      end_conversation stages st =
        some (enter_stage stages st "completion", EndOutcome.viaCompletion)) ∧
    ("completion" ∉ validTargets cur → "goodbye" ∈ validTargets cur →
      (dictGet? stages "goodbye").isSome = true →
      end_conversation stages st =
        some (enter_stage stages st "goodbye", EndOutcome.viaGoodbyeTransition)) ∧
    ("completion" ∉ validTargets cur → "goodbye" ∉ validTargets cur →
      (dictGet? stages "goodbye").isSome = true →
      end_conversation stages st =
        some (enter_stage stages st "goodbye", EndOutcome.forcedGoodbye)) ∧
    ("completion" ∉ validTargets cur → "goodbye" ∉ validTargets cur →
      dictGet? stages "goodbye" = none →
      end_conversation stages st = some (⟨st, [farewellMessage], []⟩,
        EndOutcome.defaultFarewell)) := by
  refine ⟨fun hc hex => ?_, fun hnc hg hex => ?_, fun hnc hng hex => ?_, fun hnc hng hnone => ?_⟩
  · obtain ⟨v, hv⟩ := Option.isSome_iff_exists.mp hex
    simp [end_conversation, hcur, hc, move_to_next_stage, hv]
  · obtain ⟨v, hv⟩ := Option.isSome_iff_exists.mp hex
    simp [end_conversation, hcur, hnc, hg, move_to_next_stage, hv]
  · simp [end_conversation, hcur, hnc, hng, hex]
  · simp [end_conversation, hcur, hnc, hng, hnone]

/-- Witness for C7: the intake stage declares a "completion" target, so
ending gracefully enters the completion stage. -/
theorem claim_C7_witness :
    end_conversation exStages exSt0 =
      some (enter_stage exStages exSt0 "completion", EndOutcome.viaCompletion) :=
  (claim_C7_graceful_end exStages exSt0 stIntake (by rfl)).1 (by decide) (by rfl)

/-!
Lemmas about the transition sort and the matching loop.
-/

theorem orderedInsert_filter_priority (x : NextStage) (l : List NextStage) (p : Int) :
    (List.orderedInsert nextStageGE x l).filter (fun ns => priorityOf ns == p) =
      if priorityOf x == p then x :: l.filter (fun ns => priorityOf ns == p)
      else l.filter (fun ns => priorityOf ns == p) := by
  rw [List.orderedInsert_eq_take_drop]
  simp only [decide_not, List.filter_append]
  have hsplit :
      List.filter (fun ns => priorityOf ns == p) l =
        List.filter (fun ns => priorityOf ns == p)
          (List.takeWhile (fun b => !decide (nextStageGE x b)) l) ++
        List.filter (fun ns => priorityOf ns == p)
          (List.dropWhile (fun b => !decide (nextStageGE x b)) l) := by
    rw [← List.filter_append, List.takeWhile_append_dropWhile]
  by_cases hx : priorityOf x = p
  · have htake :
        List.filter (fun ns => priorityOf ns == p)
          (List.takeWhile (fun b => !decide (nextStageGE x b)) l) = [] := by
      rw [List.filter_eq_nil_iff]
      intro a ha
      have hq := List.mem_takeWhile_imp ha
      have hlt : priorityOf x < priorityOf a := lt_of_not_le (by simpa [nextStageGE] using hq)
      simp only [beq_iff_eq]
      omega
    simp [hx, htake, hsplit]
  · have hxb : (priorityOf x == p) = false := by simpa using hx
    simp [hxb, hsplit]

theorem sortedNextStages_filter_priority (nss : List NextStage) (p : Int) :
    (sortedNextStages nss).filter (fun ns => priorityOf ns == p) =
      nss.filter (fun ns => priorityOf ns == p) := by
  induction nss with
  | nil => rfl
  | cons a l ih =>
    have hdef : sortedNextStages (a :: l) =
        List.orderedInsert nextStageGE a (sortedNextStages l) := rfl
    rw [hdef, orderedInsert_filter_priority]
    by_cases ha : priorityOf a = p
    · have hab : (priorityOf a == p) = true := by simpa using ha
      simp [hab, ih]
    · have hab : (priorityOf a == p) = false := by simpa using ha
      simp [hab, ih]

theorem firstMatchingTarget_of_no_match :
    ∀ (l : List NextStage) (ul : String),
      (∀ ns ∈ l, conditionMatches ns.condition ul = false) →
      firstMatchingTarget l ul = none
  | [], _, _ => rfl
  | ns :: rest, ul, h => by
    have hns := h ns (by simp)
    simp only [firstMatchingTarget, hns, Bool.false_eq_true, if_false]
    exact firstMatchingTarget_of_no_match rest ul (fun x hx => h x (by simp [hx]))

theorem firstMatchingTarget_mem :
    ∀ (l : List NextStage) (ul : String) (t : String),
      firstMatchingTarget l ul = some t →
      ∃ ns ∈ l, ns.stage_id = t ∧ conditionMatches ns.condition ul = true
  | [], _, _, h => by simp [firstMatchingTarget] at h
  | ns :: rest, ul, t, h => by
    by_cases hc : conditionMatches ns.condition ul = true
    · refine ⟨ns, by simp, ?_, hc⟩
      simpa [firstMatchingTarget, hc] using h
    · have hc' : conditionMatches ns.condition ul = false := by
        simpa using hc
      rw [firstMatchingTarget, hc'] at h
      obtain ⟨ns', hmem, ht, hcond⟩ := firstMatchingTarget_mem rest ul t (by simpa using h)
      exact ⟨ns', by simp [hmem], ht, hcond⟩

/-- C4: the resolver returns `none` when the current stage declares no
`next_stages`; otherwise it examines the transitions in a stable descending
priority order (missing priorities default to 50: the sorted list is a
permutation of the declaration list, pairwise descending in priority, and
preserves declaration order within each priority class) and returns the
first transition whose lowercased condition has a whitespace token occurring
in the lowercased input, or `none` when no transition matches. -/
theorem claim_C4_resolver (stages : StageMap) (ui cid : String)
    (ctx : List (String × String)) (cur : Stage)
    (hcur : dictGet? stages cid = some cur) :
    (cur.next_stages = none → find_next_stage stages ui cid ctx = some none) ∧
    (∀ nss, cur.next_stages = some nss →
      List.Perm (sortedNextStages nss) nss ∧
      List.Pairwise (fun a b => priorityOf b ≤ priorityOf a) (sortedNextStages nss) ∧
      (∀ p : Int, (sortedNextStages nss).filter (fun ns => priorityOf ns == p) =
        nss.filter (fun ns => priorityOf ns == p)) ∧
      find_next_stage stages ui cid ctx =
        some (firstMatchingTarget (sortedNextStages nss) (pyLower ui)) ∧
      ((∀ ns ∈ nss, conditionMatches ns.condition (pyLower ui) = false) →
        find_next_stage stages ui cid ctx = some none)) := by
  refine ⟨fun hns => ?_, fun nss hns => ⟨?_, ?_, ?_, ?_, ?_⟩⟩
  · simp [find_next_stage, hcur, hns]
  · exact List.perm_insertionSort nextStageGE nss
  · exact List.sorted_insertionSort nextStageGE nss
  · exact fun p => sortedNextStages_filter_priority nss p
  · simp [find_next_stage, hcur, hns]
  · intro hall
    have hnone : firstMatchingTarget (sortedNextStages nss) (pyLower ui) = none := by
      refine firstMatchingTarget_of_no_match _ _ (fun ns hmem => ?_)
      exact hall ns (by simpa [sortedNextStages] using hmem)
    simp [find_next_stage, hcur, hns, hnone]

/-- Witness for C4: the billing transition (priority 100) wins on a matching
input at the intake stage. -/
theorem claim_C4_witness :
    find_next_stage exStages "I need to pay my bill" "intake" [] = some (some "billing") := by
  have h := (claim_C4_resolver exStages "I need to pay my bill" "intake" [] stIntake rfl).2
      [⟨"billing", "bill payment", some 100⟩, ⟨"completion", "done finished", none⟩] rfl
  rw [h.2.2.2.1]
  decide

/-!
Lemmas about `complete_current_stage` and `move_to_next_stage` outcomes.
-/

theorem find_next_stage_target_declared {stages : StageMap} {ui cid : String}
    {ctx : List (String × String)} {cur : Stage} {t : String}
    (hcur : dictGet? stages cid = some cur)
    (h : find_next_stage stages ui cid ctx = some (some t)) :
    t ∈ validTargets cur := by
  have h' : (match cur.next_stages with
      | none => none
      | some nss => firstMatchingTarget (sortedNextStages nss) (pyLower ui)) = some t := by
    simpa [find_next_stage, hcur] using h
  cases hns : cur.next_stages with
  | none => rw [hns] at h'; cases h'
  | some nss =>
    rw [hns] at h'
    obtain ⟨ns, hmem, hid, _⟩ := firstMatchingTarget_mem _ _ _ h'
    have hmem' : ns ∈ nss := by simpa [sortedNextStages] using hmem
    rw [validTargets, hns]
    simpa using ⟨ns, hmem', hid⟩

theorem move_of_declared {stages : StageMap} {st : UserData} {t : String} {cur : Stage}
    (hne : t ≠ "END") (hex : (dictGet? stages t).isSome = true)
    (hcur : dictGet? stages st.current_stage_id = some cur)
    (hmem : t ∈ validTargets cur) :
    move_to_next_stage stages st t = some (enter_stage stages st t, MoveOutcome.transitioned) := by
  obtain ⟨v, hv⟩ := Option.isSome_iff_exists.mp hex
  simp [move_to_next_stage, hne, hv, hcur, hmem]

theorem move_outcome_cases {stages : StageMap} {st : UserData} {t : String}
    {ro : EngineResult × MoveOutcome}
    (hm : move_to_next_stage stages st t = some ro) :
    ro.2 = MoveOutcome.ended ∨ ro.2 = MoveOutcome.unknownStage ∨
    (ro.2 = MoveOutcome.invalidTransition ∧
      ∃ cur, dictGet? stages st.current_stage_id = some cur ∧ t ∉ validTargets cur) ∨
    ro.2 = MoveOutcome.transitioned := by
  by_cases hend : t = "END"
  · have he : move_to_next_stage stages st t =
        some (⟨st, [farewellMessage], []⟩, MoveOutcome.ended) := by
      simp [move_to_next_stage, hend]
    rw [he] at hm
    injection hm with hm
    rw [← hm]
    exact Or.inl rfl
  · by_cases hu : (dictGet? stages t).isNone = true
    · have he : move_to_next_stage stages st t = some (⟨st, [], []⟩, MoveOutcome.unknownStage) := by
        simp [move_to_next_stage, hend, hu]
      rw [he] at hm
      injection hm with hm
      rw [← hm]
      exact Or.inr (Or.inl rfl)
    · cases hget : dictGet? stages st.current_stage_id with
      | none =>
        have he : move_to_next_stage stages st t = none := by
          simp [move_to_next_stage, hend, hu, hget]
        rw [he] at hm
        cases hm
      | some cur =>
        by_cases hmem : t ∈ validTargets cur
        · have he : move_to_next_stage stages st t =
              some (enter_stage stages st t, MoveOutcome.transitioned) := by
            simp [move_to_next_stage, hend, hu, hget, hmem]
          rw [he] at hm
          injection hm with hm
          rw [← hm]
          exact Or.inr (Or.inr (Or.inr rfl))
        · have he : move_to_next_stage stages st t =
              some (⟨st, [], []⟩, MoveOutcome.invalidTransition) := by
            simp [move_to_next_stage, hend, hu, hget, hmem]
          rw [he] at hm
          injection hm with hm
          rw [← hm]
          exact Or.inr (Or.inr (Or.inl ⟨rfl, cur, rfl, hmem⟩))

/-- C10 (amended): the auto transition `complete_current_stage` never
reaches the invalid-transition rejection branch of `move_to_next_stage`.
When the resolver yields no target the session state is returned unchanged;
the same happens when it yields the empty string, which the source's
truthiness test `if next_stage:` treats as no target.  When it yields a
target, that target is one of the current stage's declared `next_stages`
targets, and for a non-empty target the delegated `move_to_next_stage`
either ends the conversation (target "END") or enters the resolved stage. -/
theorem claim_C10_auto_transition_safe (stages : StageMap) (st : UserData) (reason : String)
    (cur : Stage) (hcur : dictGet? stages st.current_stage_id = some cur) :
    (find_next_stage stages reason st.current_stage_id st.context = some none →
      complete_current_stage stages st reason = some (⟨st, [], []⟩, none)) ∧
    (find_next_stage stages reason st.current_stage_id st.context = some (some "") →
      complete_current_stage stages st reason = some (⟨st, [], []⟩, none)) ∧
    (∀ t, find_next_stage stages reason st.current_stage_id st.context = some (some t) →
      t ∈ validTargets cur ∧
      (t = "END" →
        complete_current_stage stages st reason =
          some (⟨st, [farewellMessage], []⟩, some MoveOutcome.ended)) ∧
      (t ≠ "" → t ≠ "END" → (dictGet? stages t).isSome = true →
        complete_current_stage stages st reason =
          some (enter_stage stages st t, some MoveOutcome.transitioned))) ∧
    (∀ r o, complete_current_stage stages st reason = some (r, some o) →
      o ≠ MoveOutcome.invalidTransition) := by
  refine ⟨fun h => ?_, fun h => ?_, fun t ht => ?_, fun r o h => ?_⟩
  · simp [complete_current_stage, h]
  · simp [complete_current_stage, h]
  · have hmem : t ∈ validTargets cur := find_next_stage_target_declared hcur ht
    refine ⟨hmem, fun hend => ?_, fun hemp hne hex => ?_⟩
    · subst hend
      have hx : ("END" : String) ≠ "" := by decide
      simp [complete_current_stage, ht, move_to_next_stage, hx]
    · simp [complete_current_stage, ht, hemp, move_of_declared hne hex hcur hmem]
  · cases hf : find_next_stage stages reason st.current_stage_id st.context with
    | none => simp [complete_current_stage, hf] at h
    | some inner =>
      cases inner with
      | none => simp [complete_current_stage, hf] at h
      | some t =>
        simp only [complete_current_stage, hf] at h
        by_cases ht0 : t = ""
        · rw [if_pos ht0] at h
          injection h with h
          have h2 := congrArg Prod.snd h
          simp at h2
        · rw [if_neg ht0] at h
          cases hm : move_to_next_stage stages st t with
          | none => rw [hm] at h; cases h
          | some ro =>
            rw [hm] at h
            have ho : o = ro.2 := by
              have h2 := congrArg (fun x => x.map Prod.snd) h
              simpa using h2.symm
            subst ho
            have hmem : t ∈ validTargets cur := find_next_stage_target_declared hcur hf
            rcases move_outcome_cases hm with h1 | h2 | ⟨_, cur', hcur', hnot⟩ | h4
            · rw [h1]; decide
            · rw [h2]; decide
            · rw [hcur'] at hcur
              cases hcur
              exact absurd hmem hnot
            · rw [h4]; decide

/-- Counterexample to C10 as stated: at a validator-accepted configuration
with a stage keyed by the empty string, the resolver returns that declared
target, yet the auto transition neither ends the conversation nor enters any
stage — the source's `if next_stage:` treats the empty string as falsy and
the session stays put, unchanged. -/
theorem claim_C10_counterexample :
    validate_config cfgEmptyKey = Except.ok () ∧
    find_next_stage exStagesE "please escalate this" "start" [] = some (some "") ∧
    "" ∈ validTargets stStartE ∧
    (dictGet? exStagesE "").isSome = true ∧
    complete_current_stage exStagesE exStE "please escalate this" =
      some (⟨exStE, [], []⟩, none) :=
  ⟨rfl, by decide, by decide, rfl, by decide⟩

/-- Witness for C10 (amended): a non-empty resolved target ("billing") is
entered, and a resolved empty-string target leaves the session unchanged. -/
theorem claim_C10_witness :
    "billing" ∈ validTargets stIntake ∧
    complete_current_stage exStages exSt0 "bill payment now" =
      some (enter_stage exStages exSt0 "billing", some MoveOutcome.transitioned) ∧
    complete_current_stage exStagesE exStE "please escalate this" =
      some (⟨exStE, [], []⟩, none) := by
  have h := (claim_C10_auto_transition_safe exStages exSt0 "bill payment now" stIntake
      rfl).2.2.1 "billing" (by decide)
  refine ⟨h.1, h.2.2 (by decide) (by decide) (by rfl), ?_⟩
  exact (claim_C10_auto_transition_safe exStagesE exStE "please escalate this" stStartE
      rfl).2.1 (by decide)

/-!
Lemmas about `strReplace` and `substitute_variables`.
-/

theorem string_data_inj {s t : String} (h : s.data = t.data) : s = t := by
  cases s
  cases t
  cases h
  rfl

theorem string_data_append (s t : String) : (s ++ t).data = s.data ++ t.data := by
  cases s
  cases t
  rfl

theorem varMarker_data (k : String) :
    (varMarker k).data = '\x7b' :: '\x7b' :: (k.data ++ ['\x7d', '\x7d']) := by
  cases k
  rfl

theorem isPrefixOf_append_self : ∀ (l t : List Char), l.isPrefixOf (l ++ t) = true
  | [], _ => by simp [List.isPrefixOf]
  | c :: rest, t => by
    show ((c == c) && rest.isPrefixOf (rest ++ t)) = true
    rw [beq_self_eq_true, Bool.true_and]
    exact isPrefixOf_append_self rest t

theorem replSkip_shift (p : Char) (ps rep : List Char) :
    ∀ (n : Nat) (l : List Char), replSkip p ps rep n l = replSkip p ps rep 0 (l.drop n)
  | 0, l => by rw [List.drop_zero]
  | Nat.succ n, [] => by rw [List.drop_nil]; rfl
  | Nat.succ n, c :: rest => by
    rw [List.drop_succ_cons]
    exact replSkip_shift p ps rep n rest

theorem replSkip_no_occur (p : Char) (ps rep : List Char) :
    ∀ s : List Char, isSubstrL (p :: ps) s = false → replSkip p ps rep 0 s = s
  | [], _ => rfl
  | c :: rest, h => by
    rw [isSubstrL, Bool.or_eq_false_iff] at h
    rw [replSkip, if_neg (by simp [h.1])]
    rw [replSkip_no_occur p ps rep rest h.2]

theorem replSkip_match (p : Char) (ps rep b : List Char) :
    replSkip p ps rep 0 ((p :: ps) ++ b) = rep ++ replSkip p ps rep 0 b := by
  rw [List.cons_append, replSkip,
    if_pos (by simpa [List.cons_append] using isPrefixOf_append_self (p :: ps) b),
    replSkip_shift, List.drop_left]

theorem replSkip_clean (p : Char) (ps rep : List Char) :
    ∀ (a b : List Char), (∀ c ∈ a, c ≠ p) →
      replSkip p ps rep 0 (a ++ ((p :: ps) ++ b)) = a ++ (rep ++ replSkip p ps rep 0 b)
  | [], b, _ => by simpa using replSkip_match p ps rep b
  | c :: a', b, h => by
    have hc : c ≠ p := h c (List.mem_cons_self c a')
    have hbeq : (p == c) = false := beq_eq_false_iff_ne.mpr (Ne.symm hc)
    have hpre : (p :: ps).isPrefixOf (c :: (a' ++ ((p :: ps) ++ b))) = false := by
      rw [List.isPrefixOf, hbeq, Bool.false_and]
    rw [List.cons_append, replSkip, if_neg (by rw [hpre]; exact Bool.false_ne_true),
      replSkip_clean p ps rep a' b (fun x hx => h x (List.mem_cons_of_mem c hx)),
      List.cons_append]

theorem strReplace_no_occur (t pat rep : String) (h : containsSubstr pat t = false) :
    strReplace t pat rep = t := by
  apply string_data_inj
  show replaceL pat.data rep.data t.data = t.data
  cases hp : pat.data with
  | nil => rfl
  | cons p ps =>
    show replSkip p ps rep.data 0 t.data = t.data
    apply replSkip_no_occur
    rw [containsSubstr, hp] at h
    exact h

theorem substitute_no_occur :
    ∀ (ctx : List (String × String)) (t : String),
      (∀ kv ∈ ctx, containsSubstr (varMarker kv.1) t = false) →
      substitute_variables t ctx = t
  | [], _, _ => rfl
  | kv :: rest, t, h => by
    have h1 : strReplace t (varMarker kv.1) kv.2 = t :=
      strReplace_no_occur _ _ _ (h kv (List.mem_cons_self kv rest))
    show substitute_variables (strReplace t (varMarker kv.1) kv.2) rest = t
    rw [h1]
    exact substitute_no_occur rest t (fun x hx => h x (List.mem_cons_of_mem kv hx))

theorem strReplace_clean (a b k v : String) (h : ∀ c ∈ a.data, c ≠ '\x7b') :
    strReplace (a ++ varMarker k ++ b) (varMarker k) v =
      a ++ v ++ strReplace b (varMarker k) v := by
  apply string_data_inj
  have lhs : (strReplace (a ++ varMarker k ++ b) (varMarker k) v).data =
      replSkip '\x7b' ('\x7b' :: (k.data ++ ['\x7d', '\x7d'])) v.data 0
        ((a.data ++ ('\x7b' :: '\x7b' :: (k.data ++ ['\x7d', '\x7d']))) ++ b.data) := rfl
  have rhs : (a ++ v ++ strReplace b (varMarker k) v).data =
      (a.data ++ v.data) ++
        replSkip '\x7b' ('\x7b' :: (k.data ++ ['\x7d', '\x7d'])) v.data 0 b.data := rfl
  rw [lhs, rhs, List.append_assoc, List.append_assoc]
  exact replSkip_clean _ _ _ a.data b.data h

/-- C5: `_substitute_variables` realises the documented template semantics:
the two specification examples hold; a text in which no context key's marker
occurs (in particular one whose only markers belong to absent keys) is
returned verbatim; and an occurrence of a present key's marker is replaced
by that key's value, the scan continuing to the right of the replacement.
The function is pure by construction (the Python code rebinds only its local
variable). -/
theorem claim_C5_substitution :
    substitute_variables "Hello \x7b\x7bname\x7d\x7d" [("name", "Ana")] = "Hello Ana" ∧
    substitute_variables "Hello \x7b\x7bname\x7d\x7d" [] = "Hello \x7b\x7bname\x7d\x7d" ∧
    (∀ (t : String) (ctx : List (String × String)),
      (∀ kv ∈ ctx, containsSubstr (varMarker kv.1) t = false) →
      substitute_variables t ctx = t) ∧
    (∀ (a b k v : String), (∀ c ∈ a.data, c ≠ '\x7b') →
      substitute_variables (a ++ varMarker k ++ b) [(k, v)] =
        a ++ v ++ substitute_variables b [(k, v)]) := by
  refine ⟨by decide, by decide, fun t ctx h => substitute_no_occur ctx t h,
    fun a b k v h => ?_⟩
  show strReplace (a ++ varMarker k ++ b) (varMarker k) v =
    a ++ v ++ strReplace b (varMarker k) v
  exact strReplace_clean a b k v h

/-- Witness for C5 at concrete inputs: an absent-marker text is preserved,
and a present marker is substituted. -/
theorem claim_C5_witness :
    substitute_variables "No markers here" [("name", "Ana")] = "No markers here" ∧
    substitute_variables "Pay \x7b\x7bdept\x7d\x7d now" [("dept", "billing")] =
      "Pay billing now" := by
  constructor
  · exact claim_C5_substitution.2.2.1 "No markers here" [("name", "Ana")] (by decide)
  · have h := claim_C5_substitution.2.2.2 "Pay " " now" "dept" "billing" (by decide)
    have he : ("Pay " ++ varMarker "dept" ++ " now" : String) = "Pay \x7b\x7bdept\x7d\x7d now" := by
      decide
    rw [he] at h
    rw [h]
    decide

/-!
Validity of the current stage id under the engine operations.
-/

theorem enter_stage_valid {stages : StageMap} {s : String} (st : UserData)
    (h : (dictGet? stages s).isSome = true) :
    validCurrent stages ((enter_stage stages st s).userdata) := by
  rw [validCurrent, enter_stage_current_eq]
  exact h

theorem isSome_of_not_isNone {α : Type} {o : Option α} (h : ¬o.isNone = true) :
    o.isSome = true := by
  cases o with
  | none => exact absurd rfl h
  | some v => rfl

theorem move_step_valid {stages : StageMap} {st : UserData} (t : String)
    (h : validCurrent stages st) :
    ∃ ro, move_to_next_stage stages st t = some ro ∧ validCurrent stages ro.1.userdata := by
  obtain ⟨cur, hcur⟩ := Option.isSome_iff_exists.mp h
  by_cases hend : t = "END"
  · exact ⟨(⟨st, [farewellMessage], []⟩, MoveOutcome.ended),
      by simp [move_to_next_stage, hend], h⟩
  · by_cases hu : (dictGet? stages t).isNone = true
    · exact ⟨(⟨st, [], []⟩, MoveOutcome.unknownStage),
        by simp [move_to_next_stage, hend, hu], h⟩
    · have hs : (dictGet? stages t).isSome = true := isSome_of_not_isNone hu
      by_cases hmem : t ∈ validTargets cur
      · exact ⟨(enter_stage stages st t, MoveOutcome.transitioned),
          move_of_declared hend hs hcur hmem, enter_stage_valid st hs⟩
      · exact ⟨(⟨st, [], []⟩, MoveOutcome.invalidTransition),
          by simp [move_to_next_stage, hend, hu, hcur, hmem], h⟩

theorem complete_step_valid {stages : StageMap} {st : UserData} (r : String)
    (h : validCurrent stages st) :
    ∃ ro, complete_current_stage stages st r = some ro ∧
      validCurrent stages ro.1.userdata := by
  obtain ⟨cur, hcur⟩ := Option.isSome_iff_exists.mp h
  have hf : find_next_stage stages r st.current_stage_id st.context =
      some (match cur.next_stages with
        | none => none
        | some nss => firstMatchingTarget (sortedNextStages nss) (pyLower r)) := by
    simp [find_next_stage, hcur]
  cases hinner : (match cur.next_stages with
      | none => none
      | some nss => firstMatchingTarget (sortedNextStages nss) (pyLower r)) with
  | none =>
    rw [hinner] at hf
    exact ⟨(⟨st, [], []⟩, none), by simp [complete_current_stage, hf], h⟩
  | some t =>
    rw [hinner] at hf
    by_cases ht : t = ""
    · exact ⟨(⟨st, [], []⟩, none), by simp [complete_current_stage, hf, ht], h⟩
    · obtain ⟨ro, hro, hval⟩ := move_step_valid t h
      exact ⟨(ro.1, some ro.2), by simp [complete_current_stage, hf, hro, ht], hval⟩

theorem end_step_valid {stages : StageMap} {st : UserData}
    (h : validCurrent stages st) :
    ∃ ro, end_conversation stages st = some ro ∧ validCurrent stages ro.1.userdata := by
  obtain ⟨cur, hcur⟩ := Option.isSome_iff_exists.mp h
  by_cases h1 : "completion" ∈ validTargets cur
  · obtain ⟨ro, hro, hval⟩ := move_step_valid "completion" h
    exact ⟨(ro.1, EndOutcome.viaCompletion),
      by simp [end_conversation, hcur, h1, hro], hval⟩
  · by_cases h2 : "goodbye" ∈ validTargets cur
    · obtain ⟨ro, hro, hval⟩ := move_step_valid "goodbye" h
      exact ⟨(ro.1, EndOutcome.viaGoodbyeTransition),
        by simp [end_conversation, hcur, h1, h2, hro], hval⟩
    · by_cases h3 : (dictGet? stages "goodbye").isSome = true
      · exact ⟨(enter_stage stages st "goodbye", EndOutcome.forcedGoodbye),
          by simp [end_conversation, hcur, h1, h2, h3], enter_stage_valid st h3⟩
      · exact ⟨(⟨st, [farewellMessage], []⟩, EndOutcome.defaultFarewell),
          by simp [end_conversation, hcur, h1, h2, h3], h⟩

theorem stepOp_valid {stages : StageMap} {st : UserData} (op : Op)
    (h : validCurrent stages st) :
    ∃ st2, stepOp stages st op = some st2 ∧ validCurrent stages st2 := by
  cases op with
  | moveTo t =>
    obtain ⟨ro, hro, hval⟩ := move_step_valid t h
    exact ⟨ro.1.userdata, by simp [stepOp, hro], hval⟩
  | complete r =>
    obtain ⟨ro, hro, hval⟩ := complete_step_valid r h
    exact ⟨ro.1.userdata, by simp [stepOp, hro], hval⟩
  | endConv =>
    obtain ⟨ro, hro, hval⟩ := end_step_valid h
    exact ⟨ro.1.userdata, by simp [stepOp, hro], hval⟩
  | speech m =>
    exact ⟨on_user_speech_committed st m, rfl, h⟩

theorem runOps_valid {stages : StageMap} :
    ∀ (ops : List Op) (st : UserData), validCurrent stages st →
      ∃ st2, runOps stages st ops = some st2 ∧ validCurrent stages st2
  | [], st, h => ⟨st, rfl, h⟩
  | op :: rest, st, h => by
    obtain ⟨st1, h1, hval1⟩ := stepOp_valid op h
    obtain ⟨st2, h2, hval2⟩ := runOps_valid rest st1 hval1
    exact ⟨st2, by rw [runOps, h1]; exact h2, hval2⟩

/-- C1 (amended): entering an unknown stage id leaves the context and the
history unchanged but does set `currentStageId` to the unknown id before the
existence check fails; nevertheless every engine operation validates its
target before calling `_enter_stage`, so under every sequence of engine
operations a session that starts in a valid stage always has a valid
current stage id. -/
theorem claim_C1_amended :
    (∀ (stages : StageMap) (st : UserData) (s : String), dictGet? stages s = none →
      (enter_stage stages st s).userdata.context = st.context ∧
      (enter_stage stages st s).userdata.conversation_history = st.conversation_history ∧
      (enter_stage stages st s).userdata.current_stage_id = s) ∧
    (∀ (stages : StageMap) (st : UserData) (ops : List Op), validCurrent stages st →
      ∃ st2, runOps stages st ops = some st2 ∧ validCurrent stages st2) := by
  constructor
  · intro stages st s h
    rw [enter_stage_of_none st h]
    exact ⟨rfl, rfl, rfl⟩
  · intro stages st ops h
    exact runOps_valid ops st h

/-- Counterexample to C1 as stated: entering the unknown stage id "missing"
does change the session state — `currentStageId` becomes "missing". -/
theorem claim_C1_counterexample :
    dictGet? exStages "missing" = none ∧
    (enter_stage exStages exSt0 "missing").userdata ≠ exSt0 ∧
    (enter_stage exStages exSt0 "missing").userdata.current_stage_id = "missing" := by
  refine ⟨rfl, by decide, rfl⟩

/-- Witness for C1 (amended) at a concrete unknown id and a concrete
operation sequence. -/
theorem claim_C1_witness :
    ((enter_stage exStages exSt0 "missing").userdata.context = exSt0.context ∧
     (enter_stage exStages exSt0 "missing").userdata.conversation_history =
       exSt0.conversation_history ∧
     (enter_stage exStages exSt0 "missing").userdata.current_stage_id = "missing") ∧
    ∃ st2, runOps exStages exSt0 [Op.moveTo "billing", Op.speech "hello", Op.endConv] =
        some st2 ∧ validCurrent exStages st2 :=
  ⟨claim_C1_amended.1 exStages exSt0 "missing" rfl,
   claim_C1_amended.2 exStages exSt0 [Op.moveTo "billing", Op.speech "hello", Op.endConv]
     (show (dictGet? exStages exSt0.current_stage_id).isSome = true by decide)⟩

/-!
Correctness of the configuration validator (claims C8 and C9).
-/

theorem validateNextStageList_ok (sid : String) (all : List (String × RawStage)) :
    ∀ nss, validateNextStageList sid all nss = Except.ok () ↔
      nss.all (nextStageComplete all) = true
  | [] => by simp [validateNextStageList]
  | ns :: rest => by
    cases hns : ns.stage_id with
    | none => simp [validateNextStageList, nextStageComplete, hns]
    | some t =>
      have hcompl : nextStageComplete all ns =
          (ns.condition && (t == "END" || (dictGet? all t).isSome)) := by
        simp [nextStageComplete, hns]
      rw [List.all_cons, hcompl]
      cases hcond : ns.condition with
      | false => simp [validateNextStageList, hns, hcond]
      | true =>
        simp only [validateNextStageList, hns, hcond]
        rw [if_neg (by simp)]
        by_cases hx : t ≠ "END" ∧ (dictGet? all t).isNone = true
        · have hn := Option.isNone_iff_eq_none.mp hx.2
          rw [if_pos hx]
          simp [hx.1, hn]
        · rw [if_neg hx]
          have hor : (t == "END" || (dictGet? all t).isSome) = true := by
            rcases not_and_or.mp hx with h1 | h2
            · have ht : t = "END" := not_not.mp h1
              simp [ht]
            · simp [isSome_of_not_isNone h2]
          rw [hor]
          simpa using validateNextStageList_ok sid all rest

theorem validate_stage_ok (sid : String) (s : RawStage) (all : List (String × RawStage)) :
    validate_stage sid s all = Except.ok () ↔ stageComplete all s = true := by
  rw [validate_stage, stageComplete]
  by_cases hid : s.id.isNone = true
  · have hnone := Option.isNone_iff_eq_none.mp hid
    rw [if_pos hid]
    simp [hnone]
  · have hs : s.id.isSome = true := isSome_of_not_isNone hid
    rw [if_neg hid]
    cases hname : s.name <;> cases hprompt : s.prompt <;>
      cases hcc : s.completion_criteria <;> cases hnss : s.next_stages <;>
      simp [hs, validateNextStageList_ok]

theorem validateStageList_ok (all : List (String × RawStage)) :
    ∀ l, validateStageList all l = Except.ok () ↔
      l.all (fun p => stageComplete all p.2) = true
  | [] => by simp [validateStageList]
  | (sid, s) :: rest => by
    rw [validateStageList, List.all_cons]
    cases hv : validate_stage sid s all with
    | error e =>
      have hc : stageComplete all s = false := by
        cases hx : stageComplete all s with
        | false => rfl
        | true => exact absurd ((validate_stage_ok sid s all).mpr hx) (by simp [hv])
      simp [hc]
    | ok v =>
      cases v
      have hc : stageComplete all s = true := (validate_stage_ok sid s all).mp hv
      simpa [hc] using validateStageList_ok all rest

theorem validate_global_settings_ok (gs : RawGlobalSettings) :
    validate_global_settings gs = Except.ok () ↔ globalSettingsComplete gs = true := by
  cases hl : gs.llm_settings with
  | none => simp [validate_global_settings, globalSettingsComplete, hl]
  | some llm =>
    cases hst : gs.stt_settings with
    | none => simp [validate_global_settings, globalSettingsComplete, hl, hst]
    | some stt =>
      cases htt : gs.tts_settings with
      | none => simp [validate_global_settings, globalSettingsComplete, hl, hst, htt]
      | some tts =>
        simp only [validate_global_settings, globalSettingsComplete, hl, hst, htt]
        by_cases b1 : (llm.provider && llm.model && llm.temperature) = true
        · rw [if_neg (by simp [b1])]
          by_cases b2 : (stt.provider && stt.model && stt.language) = true
          · rw [if_neg (by simp [b2])]
            by_cases b3 : (tts.provider && tts.model && tts.voice) = true
            · rw [if_neg (by simp [b3])]
              simp [b1, b2, b3]
            · have h3 : (tts.provider && tts.model && tts.voice) = false := by
                simpa using b3
              rw [if_pos (by simp [h3])]
              simp [h3]
          · have h2 : (stt.provider && stt.model && stt.language) = false := by
              simpa using b2
            rw [if_pos (by simp [h2])]
            simp [h2]
        · have h1 : (llm.provider && llm.model && llm.temperature) = false := by
            simpa using b1
          rw [if_pos (by simp [h1])]
          simp [h1]

theorem validate_agent_config_ok (ac : RawAgentConfig) :
    validate_agent_config ac = Except.ok () ↔ agentConfigComplete ac = true := by
  cases hn : ac.name <;> cases hb : ac.base_instructions <;>
    simp [validate_agent_config, agentConfigComplete, hn, hb]

theorem validate_stage_flow_ok (fl : RawFlow) :
    validate_stage_flow fl = Except.ok () ↔ flowComplete fl = true := by
  cases hss : fl.start_stage with
  | none => simp [validate_stage_flow, flowComplete, hss]
  | some ss =>
    cases hstg : fl.stages with
    | none => simp [validate_stage_flow, flowComplete, hss, hstg]
    | some stgs =>
      simp only [validate_stage_flow, flowComplete, hss, hstg]
      by_cases hd : (dictGet? stgs ss).isNone = true
      · have hnone := Option.isNone_iff_eq_none.mp hd
        rw [if_pos hd]
        simp [hnone]
      · have hs := isSome_of_not_isNone hd
        rw [if_neg hd]
        simp [hs, validateStageList_ok stgs stgs]

theorem validate_config_ok_iff (c : RawConfig) :
    validate_config c = Except.ok () ↔ structurallyComplete c = true := by
  cases hgs : c.global_settings with
  | none => simp [validate_config, structurallyComplete, hgs]
  | some gs =>
    cases hac : c.agent_config with
    | none => simp [validate_config, structurallyComplete, hgs, hac]
    | some ac =>
      cases hfl : c.flow with
      | none => simp [validate_config, structurallyComplete, hgs, hac, hfl]
      | some fl =>
        simp only [validate_config, structurallyComplete, hgs, hac, hfl]
        cases hv1 : validate_global_settings gs with
        | error e =>
          cases hx : globalSettingsComplete gs with
          | false => simp [hx]
          | true => exact absurd ((validate_global_settings_ok gs).mpr hx) (by simp [hv1])
        | ok v =>
          cases v
          have h1 : globalSettingsComplete gs = true := (validate_global_settings_ok gs).mp hv1
          cases hv2 : validate_agent_config ac with
          | error e =>
            cases hx : agentConfigComplete ac with
            | false => simp [h1, hx]
            | true => exact absurd ((validate_agent_config_ok ac).mpr hx) (by simp [hv2])
          | ok v2 =>
            cases v2
            have h2 : agentConfigComplete ac = true := (validate_agent_config_ok ac).mp hv2
            simp [h1, h2, validate_stage_flow_ok fl]

/-- C8: the validator accepts a configuration exactly when it is structurally
complete in the sense of the specification, checking top-level keys, the
settings sections with their sub-fields, `agent_config`, the flow with its
`start_stage`, the per-stage required fields, and the `next_stages` entries
with resolvable non-"END" targets; each failure branch of the embedded
validator carries the error message naming the offending field (and stage id
where applicable), in the source's short-circuiting order. -/
theorem claim_C8_validation (c : RawConfig) :
    validate_config c = Except.ok () ↔ structurallyComplete c = true :=
  validate_config_ok_iff c

theorem dictGet?_map_isNone (g : RawStage → RawStage) :
    ∀ (l : List (String × RawStage)) (k : String),
      (dictGet? (l.map (fun p => (p.1, g p.2))) k).isNone = (dictGet? l k).isNone
  | [], _ => rfl
  | (k', v) :: rest, k => by
    cases hk : (k' == k) with
    | true => simp [dictGet?, List.find?, hk]
    | false =>
      simpa [dictGet?, List.find?, hk] using dictGet?_map_isNone g rest k

theorem validateNextStageList_map (g : RawStage → RawStage) (sid : String)
    (l : List (String × RawStage)) :
    ∀ nss, validateNextStageList sid (l.map (fun p => (p.1, g p.2))) nss =
      validateNextStageList sid l nss
  | [] => rfl
  | ns :: rest => by
    cases hns : ns.stage_id with
    | none => simp [validateNextStageList, hns]
    | some t =>
      cases hcond : ns.condition with
      | false => simp [validateNextStageList, hns, hcond]
      | true =>
        simp only [validateNextStageList, hns, hcond]
        have hnotc : ¬((!true : Bool) = true) := by simp
        rw [if_neg hnotc, if_neg hnotc]
        by_cases hx : t ≠ "END" ∧ (dictGet? l t).isNone = true
        · have hx' : t ≠ "END" ∧ (dictGet? (l.map (fun p => (p.1, g p.2))) t).isNone = true :=
            ⟨hx.1, by rw [dictGet?_map_isNone]; exact hx.2⟩
          rw [if_pos hx, if_pos hx']
        · have hx' : ¬(t ≠ "END" ∧
              (dictGet? (l.map (fun p => (p.1, g p.2))) t).isNone = true) := by
            rw [not_and_or] at hx ⊢
            rcases hx with h1 | h2
            · exact Or.inl h1
            · exact Or.inr (by rw [dictGet?_map_isNone]; exact h2)
          rw [if_neg hx, if_neg hx']
          exact validateNextStageList_map g sid l rest

theorem validate_stage_map (f : String → String) (sid : String) (s : RawStage)
    (l : List (String × RawStage)) :
    validate_stage sid (stageIdMap f s) (l.map (fun p => (p.1, stageIdMap f p.2))) =
      validate_stage sid s l := by
  have hid : (stageIdMap f s).id.isNone = s.id.isNone := by
    simp only [stageIdMap]
    cases s.id <;> rfl
  by_cases h0 : s.id.isNone = true
  · rw [validate_stage, validate_stage, hid, if_pos h0, if_pos h0]
  · rw [validate_stage, validate_stage, hid, if_neg h0, if_neg h0]
    simp only [validateNextStageList_map (stageIdMap f) sid l]
    simp only [stageIdMap]

theorem validateStageList_map (f : String → String) (l : List (String × RawStage)) :
    ∀ l', validateStageList (l.map (fun p => (p.1, stageIdMap f p.2)))
        (l'.map (fun p => (p.1, stageIdMap f p.2))) =
      validateStageList l l'
  | [] => rfl
  | (sid, s) :: rest => by
    simp only [List.map, validateStageList]
    rw [validate_stage_map f sid s l]
    cases hv : validate_stage sid s l with
    | error e => rfl
    | ok v => exact validateStageList_map f l rest

theorem validate_stage_flow_map (f : String → String) (ss : Option String)
    (stgs : List (String × RawStage)) :
    validate_stage_flow ⟨ss, some (stgs.map (fun p => (p.1, stageIdMap f p.2)))⟩ =
      validate_stage_flow ⟨ss, some stgs⟩ := by
  cases ss with
  | none => rfl
  | some s0 =>
    simp only [validate_stage_flow]
    rw [show (dictGet? (stgs.map (fun p => (p.1, stageIdMap f p.2))) s0).isNone =
        (dictGet? stgs s0).isNone from dictGet?_map_isNone _ stgs s0]
    by_cases hd : (dictGet? stgs s0).isNone = true
    · rw [if_pos hd, if_pos hd]
    · rw [if_neg hd, if_neg hd]
      exact validateStageList_map f stgs stgs

theorem validate_config_map (f : String → String) (c : RawConfig) :
    validate_config (mapStageIds f c) = validate_config c := by
  obtain ⟨gs, ac, fl⟩ := c
  cases fl with
  | none => rfl
  | some flv =>
    obtain ⟨ss, stgs⟩ := flv
    cases stgs with
    | none => rfl
    | some stgsv =>
      cases gs with
      | none => rfl
      | some gsv =>
        cases ac with
        | none => rfl
        | some acv =>
          simp only [mapStageIds, Option.map, validate_config]
          rw [validate_stage_flow_map f ss stgsv]

/-- C9 (amended): load-time validation requires each stage to carry an `id`
field but never reads its value, so it does not enforce the data-model
invariant that the `id` equals the stage-map key: rewriting every stage's
`id` value arbitrarily never changes the validation result, while a stage
with the `id` field missing is always rejected. -/
theorem claim_C9_amended :
    (∀ (f : String → String) (c : RawConfig),
      validate_config (mapStageIds f c) = validate_config c) ∧
    (∀ (c : RawConfig) (fl : RawFlow) (stgs : List (String × RawStage)) (sid : String)
        (s : RawStage), c.flow = some fl → fl.stages = some stgs → (sid, s) ∈ stgs →
      s.id = none → validate_config c ≠ Except.ok ()) := by
  constructor
  · exact validate_config_map
  · intro c fl stgs sid s hfl hstgs hmem hid hok
    have hsc := (validate_config_ok_iff c).mp hok
    cases hgs : c.global_settings with
    | none => simp [structurallyComplete, hgs] at hsc
    | some gs =>
      cases hac : c.agent_config with
      | none => simp [structurallyComplete, hgs, hac] at hsc
      | some ac =>
        rw [structurallyComplete] at hsc
        simp only [hgs, hac, hfl, Bool.and_eq_true] at hsc
        have hflc := hsc.2
        cases hss : fl.start_stage with
        | none => simp [flowComplete, hss] at hflc
        | some ss =>
          simp only [flowComplete, hss, hstgs, Bool.and_eq_true] at hflc
          have hall := hflc.2
          rw [List.all_eq_true] at hall
          have hst := hall (sid, s) hmem
          rw [stageComplete, hid] at hst
          simp at hst

/-- Counterexample to C9 as stated: a configuration whose stage under key
"a" declares `id = "b"` passes validation. -/
theorem claim_C9_counterexample :
    validate_config cfgMismatch = Except.ok () ∧
    cfgMismatch.flow = some ⟨some "a",
      some [("a", ⟨some "b", true, true, true, some [⟨some "b", true⟩, ⟨some "END", true⟩]⟩),
            ("b", ⟨some "b", true, true, true, none⟩)]⟩ ∧
    ("b" : String) ≠ "a" :=
  ⟨rfl, rfl, by decide⟩

/-- Witness for C9 (amended): rewriting ids of a valid config changes
nothing; a config whose stage is missing `id` is rejected. -/
theorem claim_C9_witness :
    validate_config (mapStageIds (fun _ => "zzz") cfgGood) = validate_config cfgGood ∧
    validate_config cfgNoId ≠ Except.ok () :=
  ⟨claim_C9_amended.1 (fun _ => "zzz") cfgGood,
   claim_C9_amended.2 cfgNoId ⟨some "a", some [("a", stNoId)]⟩ [("a", stNoId)] "a" stNoId
     rfl rfl (List.mem_cons_self _ _) rfl⟩

end MPA
